import Mathlib

/-
Verification development for the hypatia numeric kernel
(`src/maths.js`, `src/geometry.js`).

Modelling decisions:

* JavaScript numbers are modelled as real numbers (`ℝ`), the idealised
  decimal semantics the library is designed to emulate; binary
  double-precision artifacts are out of scope for the finite-value claims.
* `parseFloat(v.toFixed(5))` (the `precise` helper) is modelled as exact
  rounding to 5 decimal places, `⌊v * 10^5 + 1/2⌋ / 10^5`.  The ECMAScript
  `toFixed` algorithm picks, among the candidate integers `n` minimising
  `|n / 10^5 - |v||`, the larger one.  An exact tie at the fifth decimal
  place would require `v * 10^5` to be a half-integer, and no binary double
  is a half-integer multiple of `10^-5` (the denominator `2 * 10^5` contains
  the factor `5^5`), so tie behaviour is unobservable in the reference host;
  we use `⌊x + 1/2⌋`, and no theorem or counterexample below depends on an
  exact tie.
* `Math.pow` is modelled by `Real.rpow`.  Where JavaScript produces `NaN`
  (negative base with fractional exponent) the model produces the real value
  of `Real.rpow`; no claim below depends on the value of the model in that
  divergent region, and non-finite values are handled separately by the `EV`
  model.
* `Array.prototype.reduce(callback, init)` with an index-using callback is
  modelled by `reduceIdx`; index-free callbacks use `List.foldl`.
* The computable rational mirror `MathsQ` is used only to evaluate the real
  model at concrete rational inputs; its agreement with the real model is
  proved by the `*_cast` bridge lemmas below.
* IEEE-754 special values (`Infinity`, `-Infinity`, `NaN`), which the spec
  treats only in its error-handling section, are modelled by the extended
  value type `EV.EVal`, with the JavaScript arithmetic and
  `toFixed`/`parseFloat` behaviour on special values made explicit.
-/

/-- Model of `Array.prototype.reduce` with an initial value when the callback
uses the element index: `reduceIdx f acc i l` folds `f` over `l`, feeding the
running index (starting at `i`) to the callback. -/
def reduceIdx {α β : Type} (f : α → β → ℕ → α) : α → ℕ → List β → α
  | acc, _, [] => acc
  | acc, i, cur :: rest => reduceIdx f (f acc cur i) (i + 1) rest

namespace Maths

/-- `const SIGDIG = 5` from `maths.js`. -/
def SIGDIG : ℕ := 5

/-- `precise` from `maths.js`: `parseFloat(value.toFixed(SIGDIG))`, i.e.
rounding to `SIGDIG` decimal places. -/
noncomputable def precise (value : ℝ) : ℝ :=
  (⌊value * 10 ^ SIGDIG + 1 / 2⌋ : ℤ) / 10 ^ SIGDIG

/-- `bigify` from `maths.js`: `precise(value) * Math.pow(10, SIGDIG)`. -/
noncomputable def bigify (value : ℝ) : ℝ := precise value * 10 ^ SIGDIG

/-- `smallify` from `maths.js`: `precise(value / Math.pow(10, SIGDIG))`. -/
noncomputable def smallify (value : ℝ) : ℝ := precise (value / 10 ^ SIGDIG)

/-- `add` from `maths.js`:
`values.reduce((acc, cur) => smallify(bigify(acc) + bigify(cur)), 0)`. -/
noncomputable def add (values : List ℝ) : ℝ :=
  values.foldl (fun acc cur => smallify (bigify acc + bigify cur)) 0

/-- `subtract` from `maths.js`:
`values.reduce((acc, cur, i) => i === 0 ? cur : smallify(bigify(acc) - bigify(cur)), 0)`. -/
noncomputable def subtract (values : List ℝ) : ℝ :=
  reduceIdx (fun acc cur i => if i = 0 then cur else smallify (bigify acc - bigify cur))
    0 0 values

/-- `multiply` from `maths.js`:
`values.reduce((acc, cur) => smallify(bigify(acc) * cur), 1)`. -/
noncomputable def multiply (values : List ℝ) : ℝ :=
  values.foldl (fun acc cur => smallify (bigify acc * cur)) 1

/-- `divide` from `maths.js`:
`values.reduce((acc, cur, i) => i === 0 ? cur : smallify(bigify(acc) / cur), 0)`. -/
noncomputable def divide (values : List ℝ) : ℝ :=
  reduceIdx (fun acc cur i => if i = 0 then cur else smallify (bigify acc / cur))
    0 0 values

/-- `pow` from `maths.js`:
`values.reverse().reduce((acc, cur, i) => precise(Math.pow(precise(cur), acc)), 1)`
(the callback ignores the index). -/
noncomputable def pow (values : List ℝ) : ℝ :=
  values.reverse.foldl (fun acc cur => precise (Real.rpow (precise cur) acc)) 1

/-- `inv` from `maths.js`: `subtract(minuend, value)`; in the source the
`minuend` parameter defaults to `1`, callers passing one argument are
translated with an explicit second argument `1`. -/
noncomputable def inv (value minuend : ℝ) : ℝ := subtract [minuend, value]

/-- `e2` from `maths.js`: `pow(value, 2)`. -/
noncomputable def e2 (value : ℝ) : ℝ := pow [value, 2]

/-- `e3` from `maths.js`: `pow(value, 3)`. -/
noncomputable def e3 (value : ℝ) : ℝ := pow [value, 3]

/-- `neg` from `maths.js`: `multiply(value, -1)`. -/
noncomputable def neg (value : ℝ) : ℝ := multiply [value, -1]

/-- `delta` from `maths.js`: `subtract(b, a)`. -/
noncomputable def delta (a b : ℝ) : ℝ := subtract [b, a]

/-- `lerp1` from `maths.js`: `add(a, multiply(delta(a, b), t))`. -/
noncomputable def lerp1 (a b t : ℝ) : ℝ := add [a, multiply [delta a b, t]]

/-- A 2-D point `{x, y}` as used by the point-level interpolation helpers. -/
structure Point where
  x : ℝ
  y : ℝ

/-- `lerp2` from `maths.js`:
`({x: x0, y: y0}, {x: x1, y: y1}, t) => ({x: lerp1(x0, x1, t), y: lerp1(y0, y1, t)})`. -/
noncomputable def lerp2 (p0 p1 : Point) (t : ℝ) : Point :=
  { x := lerp1 p0.x p1.x t, y := lerp1 p0.y p1.y t }

/-- `qbez1` from `maths.js`:
`add(multiply(a, e2(inv(t))), multiply(b, e2(t)), multiply(c, multiply(2, subtract(t, e2(t)))))`. -/
noncomputable def qbez1 (a b c t : ℝ) : ℝ :=
  add [multiply [a, e2 (inv t 1)],
       multiply [b, e2 t],
       multiply [c, multiply [2, subtract [t, e2 t]]]]

/-- `qbez2` from `maths.js`:
`({x: x0, y: y0}, {x: cx, y: cy}, {x: x1, y: y1}, t) =>`
`({x: qbez1(x0, x1, cx, t), y: qbez1(y0, y1, cy, t)})` — note the second
argument of the wrapper is the control point but lands in the third slot of
`qbez1`. -/
noncomputable def qbez2 (p0 pc p1 : Point) (t : ℝ) : Point :=
  { x := qbez1 p0.x p1.x pc.x t, y := qbez1 p0.y p1.y pc.y t }

/-- `cbez1` from `maths.js`: the ten-term Bernstein expansion
`add(a, multiply(neg(3), a, t), multiply(3, a, e2(t)), multiply(neg(a), e3(t)),`
`multiply(3, b, t), multiply(neg(6), b, e2(t)), multiply(3, b, e3(t)),`
`multiply(3, c, e2(t)), multiply(neg(3), c, e3(t)), multiply(d, e3(t)))`. -/
noncomputable def cbez1 (a b c d t : ℝ) : ℝ :=
  add [a,
       multiply [neg 3, a, t],
       multiply [3, a, e2 t],
       multiply [neg a, e3 t],
       multiply [3, b, t],
       multiply [neg 6, b, e2 t],
       multiply [3, b, e3 t],
       multiply [3, c, e2 t],
       multiply [neg 3, c, e3 t],
       multiply [d, e3 t]]

/-- `cbez2` from `maths.js`:
`({x: x0, y: y0}, {x: cx0, y: cy0}, {x: cx1, y: cy1}, {x: x1, y: y1}, t) =>`
`({x: cbez1(x0, cx0, cx1, x1, t), y: cbez1(y0, cy0, cy1, y1, t)})`. -/
noncomputable def cbez2 (p0 c0 c1 p1 : Point) (t : ℝ) : Point :=
  { x := cbez1 p0.x c0.x c1.x p1.x t, y := cbez1 p0.y c0.y c1.y p1.y t }

end Maths

namespace Geometry

/-- `lerp1` from `geometry.js`: `Maths.add(a, Maths.multiply(Maths.delta(a, b), t))`. -/
noncomputable def lerp1 (a b t : ℝ) : ℝ :=
  Maths.add [a, Maths.multiply [Maths.delta a b, t]]

/-- `lerp2` from `geometry.js`. -/
noncomputable def lerp2 (p0 p1 : Maths.Point) (t : ℝ) : Maths.Point :=
  { x := lerp1 p0.x p1.x t, y := lerp1 p0.y p1.y t }

/-- `qbez1` from `geometry.js`:
`Maths.add(Maths.multiply(a, Maths.e2(Maths.inv(t))), Maths.multiply(b, Maths.e2(t)),`
`Maths.multiply(c, Maths.multiply(2, Maths.subtract(t, Maths.e2(t)))))`. -/
noncomputable def qbez1 (a b c t : ℝ) : ℝ :=
  Maths.add [Maths.multiply [a, Maths.e2 (Maths.inv t 1)],
             Maths.multiply [b, Maths.e2 t],
             Maths.multiply [c, Maths.multiply [2, Maths.subtract [t, Maths.e2 t]]]]

/-- `qbez2` from `geometry.js`: same slot assignment
`qbez1(x0, x1, cx, t)` as the `maths.js` wrapper. -/
noncomputable def qbez2 (p0 pc p1 : Maths.Point) (t : ℝ) : Maths.Point :=
  { x := qbez1 p0.x p1.x pc.x t, y := qbez1 p0.y p1.y pc.y t }

/-- `cbez1` from `geometry.js`: the same ten-term expansion as in `maths.js`. -/
noncomputable def cbez1 (a b c d t : ℝ) : ℝ :=
  Maths.add [a,
             Maths.multiply [Maths.neg 3, a, t],
             Maths.multiply [3, a, Maths.e2 t],
             Maths.multiply [Maths.neg a, Maths.e3 t],
             Maths.multiply [3, b, t],
             Maths.multiply [Maths.neg 6, b, Maths.e2 t],
             Maths.multiply [3, b, Maths.e3 t],
             Maths.multiply [3, c, Maths.e2 t],
             Maths.multiply [Maths.neg 3, c, Maths.e3 t],
             Maths.multiply [d, Maths.e3 t]]

/-- `cbez2` from `geometry.js`. -/
noncomputable def cbez2 (p0 c0 c1 p1 : Maths.Point) (t : ℝ) : Maths.Point :=
  { x := cbez1 p0.x c0.x c1.x p1.x t, y := cbez1 p0.y c0.y c1.y p1.y t }

end Geometry

namespace MathsQ

/-- Computable rational mirror of `Maths.precise`; agreement with the real
model is `precise_cast` below. -/
def precise (value : ℚ) : ℚ :=
  (⌊value * 10 ^ Maths.SIGDIG + 1 / 2⌋ : ℤ) / 10 ^ Maths.SIGDIG

/-- Computable rational mirror of `Maths.bigify`. -/
def bigify (value : ℚ) : ℚ := precise value * 10 ^ Maths.SIGDIG

/-- Computable rational mirror of `Maths.smallify`. -/
def smallify (value : ℚ) : ℚ := precise (value / 10 ^ Maths.SIGDIG)

/-- Computable rational mirror of `Maths.add`. -/
def add (values : List ℚ) : ℚ :=
  values.foldl (fun acc cur => smallify (bigify acc + bigify cur)) 0

/-- Computable rational mirror of `Maths.subtract`. -/
def subtract (values : List ℚ) : ℚ :=
  reduceIdx (fun acc cur i => if i = 0 then cur else smallify (bigify acc - bigify cur))
    0 0 values

/-- Computable rational mirror of `Maths.multiply`. -/
def multiply (values : List ℚ) : ℚ :=
  values.foldl (fun acc cur => smallify (bigify acc * cur)) 1

/-- Computable rational mirror of `Maths.divide`. -/
def divide (values : List ℚ) : ℚ :=
  reduceIdx (fun acc cur i => if i = 0 then cur else smallify (bigify acc / cur))
    0 0 values

/-- Computable rational mirror of `Maths.e2` (the exponent `2` is a natural
number power here; agreement with the `Real.rpow` fold is `e2_cast` below). -/
def e2 (value : ℚ) : ℚ := precise (precise value ^ (2 : ℕ))

/-- Computable rational mirror of `Maths.e3`. -/
def e3 (value : ℚ) : ℚ := precise (precise value ^ (3 : ℕ))

/-- Computable rational mirror of `Maths.inv`. -/
def inv (value minuend : ℚ) : ℚ := subtract [minuend, value]

/-- Computable rational mirror of `Maths.neg`. -/
def neg (value : ℚ) : ℚ := multiply [value, -1]

/-- Computable rational mirror of `Maths.delta`. -/
def delta (a b : ℚ) : ℚ := subtract [b, a]

/-- Computable rational mirror of `Maths.lerp1`. -/
def lerp1 (a b t : ℚ) : ℚ := add [a, multiply [delta a b, t]]

/-- Computable rational mirror of `Maths.qbez1`. -/
def qbez1 (a b c t : ℚ) : ℚ :=
  add [multiply [a, e2 (inv t 1)],
       multiply [b, e2 t],
       multiply [c, multiply [2, subtract [t, e2 t]]]]

/-- Computable rational mirror of `Maths.cbez1`. -/
def cbez1 (a b c d t : ℚ) : ℚ :=
  add [a,
       multiply [neg 3, a, t],
       multiply [3, a, e2 t],
       multiply [neg a, e3 t],
       multiply [3, b, t],
       multiply [neg 6, b, e2 t],
       multiply [3, b, e3 t],
       multiply [3, c, e2 t],
       multiply [neg 3, c, e3 t],
       multiply [d, e3 t]]

end MathsQ

namespace EV

/-- JavaScript numbers including the IEEE-754 special values: a finite value
(idealised as a rational), the two infinities, and `NaN`.  Signed zero is not
distinguished (the claims under verification never depend on it). -/
inductive EVal : Type
  | fin (q : ℚ)
  | inf
  | ninf
  | nan
deriving DecidableEq

/-- A value is finite when it is not an infinity and not `NaN`. -/
def isFinite : EVal → Bool
  | .fin _ => true
  | _ => false

/-- JavaScript `+` on extended values. -/
def eAdd : EVal → EVal → EVal
  | .nan, _ => .nan
  | _, .nan => .nan
  | .inf, .ninf => .nan
  | .ninf, .inf => .nan
  | .inf, _ => .inf
  | _, .inf => .inf
  | .ninf, _ => .ninf
  | _, .ninf => .ninf
  | .fin a, .fin b => .fin (a + b)

/-- JavaScript unary minus on extended values. -/
def eNeg : EVal → EVal
  | .fin a => .fin (-a)
  | .inf => .ninf
  | .ninf => .inf
  | .nan => .nan

/-- JavaScript `-` on extended values. -/
def eSub (a b : EVal) : EVal := eAdd a (eNeg b)

/-- JavaScript `*` on extended values. -/
def eMul : EVal → EVal → EVal
  | .nan, _ => .nan
  | _, .nan => .nan
  | .fin a, .fin b => .fin (a * b)
  | .inf, .fin b => if 0 < b then .inf else if b < 0 then .ninf else .nan
  | .fin a, .inf => if 0 < a then .inf else if a < 0 then .ninf else .nan
  | .ninf, .fin b => if 0 < b then .ninf else if b < 0 then .inf else .nan
  | .fin a, .ninf => if 0 < a then .ninf else if a < 0 then .inf else .nan
  | .inf, .inf => .inf
  | .inf, .ninf => .ninf
  | .ninf, .inf => .ninf
  | .ninf, .ninf => .inf

/-- JavaScript `/` on extended values (division by the literal zero behaves
as division by `+0`). -/
def eDiv : EVal → EVal → EVal
  | .nan, _ => .nan
  | _, .nan => .nan
  | .fin a, .fin b =>
      if b = 0 then (if 0 < a then .inf else if a < 0 then .ninf else .nan)
      else .fin (a / b)
  | .inf, .fin b => if 0 ≤ b then .inf else .ninf
  | .ninf, .fin b => if 0 ≤ b then .ninf else .inf
  | .fin _, .inf => .fin 0
  | .fin _, .ninf => .fin 0
  | .inf, .inf => .nan
  | .inf, .ninf => .nan
  | .ninf, .inf => .nan
  | .ninf, .ninf => .nan

/-- `precise` on extended values: `Infinity.toFixed(5)` is `"Infinity"` and
parses back to `Infinity` (likewise `-Infinity` and `NaN`), so the special
values pass through unchanged. -/
def preciseE : EVal → EVal
  | .fin q => .fin (MathsQ.precise q)
  | v => v

/-- `bigify` on extended values. -/
def bigifyE (value : EVal) : EVal := eMul (preciseE value) (.fin (10 ^ Maths.SIGDIG))

/-- `smallify` on extended values. -/
def smallifyE (value : EVal) : EVal := preciseE (eDiv value (.fin (10 ^ Maths.SIGDIG)))

/-- `add` over extended values. -/
def addE (values : List EVal) : EVal :=
  values.foldl (fun acc cur => smallifyE (eAdd (bigifyE acc) (bigifyE cur))) (.fin 0)

/-- `subtract` over extended values. -/
def subtractE (values : List EVal) : EVal :=
  reduceIdx (fun acc cur i => if i = 0 then cur else smallifyE (eSub (bigifyE acc) (bigifyE cur)))
    (.fin 0) 0 values

/-- `multiply` over extended values. -/
def multiplyE (values : List EVal) : EVal :=
  values.foldl (fun acc cur => smallifyE (eMul (bigifyE acc) cur)) (.fin 1)

/-- `divide` over extended values. -/
def divideE (values : List EVal) : EVal :=
  reduceIdx (fun acc cur i => if i = 0 then cur else smallifyE (eDiv (bigifyE acc) cur))
    (.fin 0) 0 values

end EV

/-- Modelled from the spec: the per-step formula the spec ascribes to `pow`
("computing `round_to_sigdig(operand ^ accumulator)` at each step"), i.e.
without rounding the operand before exponentiating; compared against the
source's `Maths.pow` in claim C2. -/
noncomputable def powSpecC2 (values : List ℝ) : ℝ :=
  values.reverse.foldl (fun acc cur => Maths.precise (Real.rpow cur acc)) 1

namespace Maths

lemma ten_pow_ne : ((10 : ℝ) ^ SIGDIG) ≠ 0 := by norm_num

/-- Rounding fixes every value that is an integer multiple of `10^-SIGDIG`. -/
lemma precise_grid (k : ℤ) :
    precise ((k : ℝ) / 10 ^ SIGDIG) = (k : ℝ) / 10 ^ SIGDIG := by
  unfold precise
  rw [div_mul_cancel₀ _ ten_pow_ne, Int.floor_int_add]
  norm_num

/-- Rounding is idempotent. -/
lemma precise_idem (x : ℝ) : precise (precise x) = precise x :=
  precise_grid _

/-- Rounding fixes integers. -/
lemma precise_intCast (n : ℤ) : precise ((n : ℝ)) = (n : ℝ) := by
  have h : ((n : ℝ)) = ((n * 10 ^ SIGDIG : ℤ) : ℝ) / 10 ^ SIGDIG := by
    push_cast
    rw [mul_div_cancel_right₀ _ ten_pow_ne]
  rw [h, precise_grid]

lemma precise_zero : precise (0 : ℝ) = 0 := by
  simpa using precise_intCast 0

lemma precise_one : precise (1 : ℝ) = 1 := by
  simpa using precise_intCast 1

lemma precise_two : precise (2 : ℝ) = 2 := by
  simpa using precise_intCast 2

lemma precise_three : precise (3 : ℝ) = 3 := by
  simpa using precise_intCast 3

/-- The `add`/`subtract` scaling step in closed form. -/
lemma addStep (x y : ℝ) :
    smallify (bigify x + bigify y) = precise (precise x + precise y) := by
  unfold smallify bigify
  congr 1
  rw [← add_mul, mul_div_cancel_right₀ _ ten_pow_ne]

lemma subStep (x y : ℝ) :
    smallify (bigify x - bigify y) = precise (precise x - precise y) := by
  unfold smallify bigify
  congr 1
  rw [← sub_mul, mul_div_cancel_right₀ _ ten_pow_ne]

/-- The `multiply` scaling step in closed form (only the accumulator is
scaled). -/
lemma mulStep (x y : ℝ) :
    smallify (bigify x * y) = precise (precise x * y) := by
  unfold smallify bigify
  congr 1
  rw [mul_right_comm, mul_div_cancel_right₀ _ ten_pow_ne]

/-- The `divide` scaling step in closed form (the divisor is not scaled). -/
lemma divStep (x y : ℝ) :
    smallify (bigify x / y) = precise (precise x / y) := by
  unfold smallify bigify
  congr 1
  rw [div_div, mul_comm y, ← div_div, mul_div_cancel_right₀ _ ten_pow_ne]

end Maths

namespace Maths

/-- A fold whose step always ends in `precise` produces a `precise` fixed
point as soon as at least one step has run. -/
lemma foldl_fix (f : ℝ → ℝ → ℝ) (hf : ∀ a c, precise (f a c) = f a c) :
    ∀ (l : List ℝ) (init : ℝ), precise init = init →
      precise (l.foldl f init) = l.foldl f init := by
  intro l
  induction l with
  | nil => intro init h; simpa using h
  | cons c cs ih => intro init h; simpa using ih (f init c) (hf init c)

lemma foldl_fix_ne (f : ℝ → ℝ → ℝ) (hf : ∀ a c, precise (f a c) = f a c) :
    ∀ (l : List ℝ) (init : ℝ), l ≠ [] →
      precise (l.foldl f init) = l.foldl f init := by
  intro l
  cases l with
  | nil => intro init h; exact absurd rfl h
  | cons c cs => intro init _; simpa using foldl_fix f hf cs (f init c) (hf init c)

lemma precise_smallify (x : ℝ) : precise (smallify x) = smallify x :=
  precise_idem _

/-- `reduceIdx` started at a positive index never takes the index-zero
branch, so it is a plain fold of the late-step function. -/
lemma reduceIdx_pos {α : Type} (g : α → α → α) :
    ∀ (l : List α) (acc : α) (i : ℕ),
      reduceIdx (fun a c j => if j = 0 then c else g a c) acc (i + 1) l =
        l.foldl g acc := by
  intro l
  induction l with
  | nil => intro acc i; rfl
  | cons c cs ih =>
      intro acc i
      show reduceIdx _ (if i + 1 = 0 then c else g acc c) (i + 2) cs = _
      simpa using ih (g acc c) (i + 1)

lemma subtract_cons (v : ℝ) (vs : List ℝ) :
    subtract (v :: vs) =
      vs.foldl (fun acc cur => smallify (bigify acc - bigify cur)) v := by
  show reduceIdx _ (if (0 : ℕ) = 0 then v else _) 1 vs = _
  simpa using reduceIdx_pos (fun a c => smallify (bigify a - bigify c)) vs v 0

lemma divide_cons (v : ℝ) (vs : List ℝ) :
    divide (v :: vs) =
      vs.foldl (fun acc cur => smallify (bigify acc / cur)) v := by
  show reduceIdx _ (if (0 : ℕ) = 0 then v else _) 1 vs = _
  simpa using reduceIdx_pos (fun a c => smallify (bigify a / c)) vs v 0

lemma subtract_single (v : ℝ) : subtract [v] = v := by
  rw [subtract_cons]
  rfl

lemma divide_single (v : ℝ) : divide [v] = v := by
  rw [divide_cons]
  rfl

lemma subtract_two (x y : ℝ) : subtract [x, y] = precise (precise x - precise y) := by
  rw [subtract_cons]
  show smallify (bigify x - bigify y) = _
  exact subStep x y

lemma multiply_single (x : ℝ) : multiply [x] = precise x := by
  show smallify (bigify 1 * x) = _
  rw [mulStep, precise_one, one_mul]

lemma multiply_two (x y : ℝ) : multiply [x, y] = precise (precise x * y) := by
  show smallify (bigify (smallify (bigify 1 * x)) * y) = _
  rw [mulStep, mulStep, precise_one, one_mul, precise_idem]

lemma multiply_three (x y z : ℝ) :
    multiply [x, y, z] = precise (precise (precise x * y) * z) := by
  show smallify (bigify (smallify (bigify (smallify (bigify 1 * x)) * y)) * z) = _
  rw [mulStep, mulStep, mulStep, precise_one, one_mul, precise_idem, precise_idem]

lemma add_two (x y : ℝ) : add [x, y] = precise (precise x + precise y) := by
  show smallify (bigify (smallify (bigify 0 + bigify x)) + bigify y) = _
  rw [addStep, addStep, precise_zero, zero_add, precise_idem, precise_idem]

lemma add_three (x y z : ℝ) :
    add [x, y, z] = precise (precise (precise x + precise y) + precise z) := by
  show smallify (bigify (smallify (bigify (smallify (bigify 0 + bigify x)) + bigify y)) + bigify z) = _
  rw [addStep, addStep, addStep, precise_zero, zero_add, precise_idem,
    precise_idem, precise_idem]

/-- `neg` in closed form. -/
lemma neg_eq (x : ℝ) : neg x = precise (-precise x) := by
  unfold neg
  rw [multiply_two, mul_neg_one]

/-- `delta` of equal arguments collapses to zero. -/
lemma delta_self (a : ℝ) : delta a a = 0 := by
  unfold delta
  rw [subtract_two, sub_self, precise_zero]

lemma rpow_eq_pow (x y : ℝ) : Real.rpow x y = x ^ y := rfl

/-- `e2` in closed form: the `rpow` fold reduces to an integer square. -/
lemma e2_eq (x : ℝ) : e2 x = precise (precise x ^ (2 : ℕ)) := by
  unfold e2 pow
  show precise (Real.rpow (precise x) (precise (Real.rpow (precise 2) 1))) = _
  rw [rpow_eq_pow, rpow_eq_pow, Real.rpow_one, precise_idem, precise_two,
    show (2 : ℝ) = ((2 : ℕ) : ℝ) by norm_num, Real.rpow_natCast]

/-- `e3` in closed form: the `rpow` fold reduces to an integer cube. -/
lemma e3_eq (x : ℝ) : e3 x = precise (precise x ^ (3 : ℕ)) := by
  unfold e3 pow
  show precise (Real.rpow (precise x) (precise (Real.rpow (precise 3) 1))) = _
  rw [rpow_eq_pow, rpow_eq_pow, Real.rpow_one, precise_idem, precise_three,
    show (3 : ℝ) = ((3 : ℕ) : ℝ) by norm_num, Real.rpow_natCast]

lemma e2_zero : e2 (0 : ℝ) = 0 := by
  rw [e2_eq, precise_zero]
  norm_num [precise_zero]

lemma e2_one : e2 (1 : ℝ) = 1 := by
  rw [e2_eq, precise_one]
  norm_num [precise_one]

lemma e3_zero : e3 (0 : ℝ) = 0 := by
  rw [e3_eq, precise_zero]
  norm_num [precise_zero]

lemma e3_one : e3 (1 : ℝ) = 1 := by
  rw [e3_eq, precise_one]
  norm_num [precise_one]

/-- `inv(0)` (minuend defaulted to 1) evaluates to 1. -/
lemma inv_zero : inv 0 1 = 1 := by
  unfold inv
  rw [subtract_two, precise_one, precise_zero, sub_zero, precise_one]

/-- `inv(1)` (minuend defaulted to 1) evaluates to 0. -/
lemma inv_one : inv 1 1 = 0 := by
  unfold inv
  rw [subtract_two, sub_self, precise_zero]

end Maths

section CastBridge

/-- The rounding function commutes with the embedding of `ℚ` into `ℝ`. -/
lemma precise_cast (q : ℚ) : Maths.precise (q : ℝ) = ((MathsQ.precise q : ℚ) : ℝ) := by
  unfold Maths.precise MathsQ.precise
  rw [show ((q : ℝ) * 10 ^ Maths.SIGDIG + 1 / 2) = (((q * 10 ^ Maths.SIGDIG + 1 / 2 : ℚ)) : ℝ)
      by push_cast; ring,
    Rat.floor_cast]
  push_cast
  ring

lemma bigify_cast (q : ℚ) : Maths.bigify (q : ℝ) = ((MathsQ.bigify q : ℚ) : ℝ) := by
  unfold Maths.bigify MathsQ.bigify
  rw [precise_cast]
  push_cast
  ring

lemma smallify_cast (q : ℚ) : Maths.smallify (q : ℝ) = ((MathsQ.smallify q : ℚ) : ℝ) := by
  unfold Maths.smallify MathsQ.smallify
  rw [show ((q : ℝ) / 10 ^ Maths.SIGDIG) = (((q / 10 ^ Maths.SIGDIG : ℚ)) : ℝ) by push_cast; ring,
    precise_cast]

/-- A fold over rationals embeds into the corresponding fold over reals when
the step functions agree through the embedding. -/
lemma foldl_cast (f : ℝ → ℝ → ℝ) (g : ℚ → ℚ → ℚ)
    (hfg : ∀ a c : ℚ, f (a : ℝ) (c : ℝ) = ((g a c : ℚ) : ℝ)) :
    ∀ (l : List ℚ) (a : ℚ),
      List.foldl f (a : ℝ) (l.map (fun q : ℚ => (q : ℝ))) = ((List.foldl g a l : ℚ) : ℝ) := by
  intro l
  induction l with
  | nil => intro a; rfl
  | cons c cs ih =>
      intro a
      simp only [List.map_cons, List.foldl_cons]
      rw [hfg a c]
      exact ih (g a c)

lemma reduceIdx_cast (F : ℝ → ℝ → ℕ → ℝ) (G : ℚ → ℚ → ℕ → ℚ)
    (hFG : ∀ (a c : ℚ) (i : ℕ), F (a : ℝ) (c : ℝ) i = ((G a c i : ℚ) : ℝ)) :
    ∀ (l : List ℚ) (a : ℚ) (i : ℕ),
      reduceIdx F (a : ℝ) i (l.map (fun q : ℚ => (q : ℝ))) = ((reduceIdx G a i l : ℚ) : ℝ) := by
  intro l
  induction l with
  | nil => intro a i; rfl
  | cons c cs ih =>
      intro a i
      simp only [List.map_cons, reduceIdx]
      rw [hFG a c i]
      exact ih (G a c i) (i + 1)

lemma add_cast (l : List ℚ) :
    Maths.add (l.map (fun q : ℚ => (q : ℝ))) = ((MathsQ.add l : ℚ) : ℝ) := by
  unfold Maths.add MathsQ.add
  rw [show ((0 : ℝ)) = (((0 : ℚ)) : ℝ) by norm_num]
  apply foldl_cast
  intro a c
  rw [bigify_cast, bigify_cast, show ((((MathsQ.bigify a) : ℚ) : ℝ) + (((MathsQ.bigify c) : ℚ) : ℝ))
      = (((MathsQ.bigify a + MathsQ.bigify c : ℚ)) : ℝ) by push_cast; ring,
    smallify_cast]

lemma subtract_cast (l : List ℚ) :
    Maths.subtract (l.map (fun q : ℚ => (q : ℝ))) = ((MathsQ.subtract l : ℚ) : ℝ) := by
  unfold Maths.subtract MathsQ.subtract
  rw [show ((0 : ℝ)) = (((0 : ℚ)) : ℝ) by norm_num]
  apply reduceIdx_cast
  intro a c i
  by_cases hi : i = 0
  · simp [hi]
  · simp only [hi, if_false]
    rw [bigify_cast, bigify_cast, show ((((MathsQ.bigify a) : ℚ) : ℝ) - (((MathsQ.bigify c) : ℚ) : ℝ))
        = (((MathsQ.bigify a - MathsQ.bigify c : ℚ)) : ℝ) by push_cast; ring,
      smallify_cast]

lemma multiply_cast (l : List ℚ) :
    Maths.multiply (l.map (fun q : ℚ => (q : ℝ))) = ((MathsQ.multiply l : ℚ) : ℝ) := by
  unfold Maths.multiply MathsQ.multiply
  rw [show ((1 : ℝ)) = (((1 : ℚ)) : ℝ) by norm_num]
  apply foldl_cast
  intro a c
  rw [bigify_cast, show ((((MathsQ.bigify a) : ℚ) : ℝ) * (c : ℝ))
      = (((MathsQ.bigify a * c : ℚ)) : ℝ) by push_cast; ring,
    smallify_cast]

lemma divide_cast (l : List ℚ) :
    Maths.divide (l.map (fun q : ℚ => (q : ℝ))) = ((MathsQ.divide l : ℚ) : ℝ) := by
  unfold Maths.divide MathsQ.divide
  rw [show ((0 : ℝ)) = (((0 : ℚ)) : ℝ) by norm_num]
  apply reduceIdx_cast
  intro a c i
  by_cases hi : i = 0
  · simp [hi]
  · simp only [hi, if_false]
    rw [bigify_cast, show ((((MathsQ.bigify a) : ℚ) : ℝ) / (c : ℝ))
        = (((MathsQ.bigify a / c : ℚ)) : ℝ) by push_cast; ring,
      smallify_cast]

lemma e2_cast (q : ℚ) : Maths.e2 (q : ℝ) = ((MathsQ.e2 q : ℚ) : ℝ) := by
  rw [Maths.e2_eq, precise_cast, show ((((MathsQ.precise q) : ℚ) : ℝ) ^ (2 : ℕ))
      = (((MathsQ.precise q ^ (2 : ℕ) : ℚ)) : ℝ) by push_cast; ring,
    precise_cast]
  rfl

lemma e3_cast (q : ℚ) : Maths.e3 (q : ℝ) = ((MathsQ.e3 q : ℚ) : ℝ) := by
  rw [Maths.e3_eq, precise_cast, show ((((MathsQ.precise q) : ℚ) : ℝ) ^ (3 : ℕ))
      = (((MathsQ.precise q ^ (3 : ℕ) : ℚ)) : ℝ) by push_cast; ring,
    precise_cast]
  rfl

lemma subtract_two_cast (a b : ℚ) :
    Maths.subtract [(a : ℝ), (b : ℝ)] = ((MathsQ.subtract [a, b] : ℚ) : ℝ) := by
  simpa using subtract_cast [a, b]

lemma neg_cast (q : ℚ) : Maths.neg (q : ℝ) = ((MathsQ.neg q : ℚ) : ℝ) := by
  unfold Maths.neg MathsQ.neg
  rw [show ([(q : ℝ), -1] : List ℝ) = ([q, -1] : List ℚ).map (fun q : ℚ => (q : ℝ)) by
      simp, multiply_cast]

lemma delta_cast (a b : ℚ) :
    Maths.delta (a : ℝ) (b : ℝ) = ((MathsQ.delta a b : ℚ) : ℝ) := by
  unfold Maths.delta MathsQ.delta
  exact subtract_two_cast b a

lemma inv_cast (a m : ℚ) :
    Maths.inv (a : ℝ) (m : ℝ) = ((MathsQ.inv a m : ℚ) : ℝ) := by
  unfold Maths.inv MathsQ.inv
  exact subtract_two_cast m a

lemma lerp1_cast (a b t : ℚ) :
    Maths.lerp1 (a : ℝ) (b : ℝ) (t : ℝ) = ((MathsQ.lerp1 a b t : ℚ) : ℝ) := by
  unfold Maths.lerp1 MathsQ.lerp1
  rw [show ([(Maths.delta (a : ℝ) (b : ℝ)), (t : ℝ)] : List ℝ)
      = ([MathsQ.delta a b, t] : List ℚ).map (fun q : ℚ => (q : ℝ)) by simp [delta_cast],
    multiply_cast,
    show ([(a : ℝ), (((MathsQ.multiply [MathsQ.delta a b, t] : ℚ)) : ℝ)] : List ℝ)
      = ([a, MathsQ.multiply [MathsQ.delta a b, t]] : List ℚ).map (fun q : ℚ => (q : ℝ)) by simp,
    add_cast]

end CastBridge

namespace Maths

/-- A `precise` fixed point is an integer multiple of `10^-SIGDIG`. -/
lemma grid_of_fix {x : ℝ} (hx : precise x = x) :
    ∃ k : ℤ, x = (k : ℝ) / 10 ^ SIGDIG :=
  ⟨⌊x * 10 ^ SIGDIG + 1 / 2⌋, hx.symm⟩

lemma fix_of_grid {x : ℝ} (k : ℤ) (h : x = (k : ℝ) / 10 ^ SIGDIG) :
    precise x = x := by
  rw [h, precise_grid]

/-- Fixed points of `precise` are closed under addition. -/
lemma fix_add {x y : ℝ} (hx : precise x = x) (hy : precise y = y) :
    precise (x + y) = x + y := by
  obtain ⟨k, hk⟩ := grid_of_fix hx
  obtain ⟨l, hl⟩ := grid_of_fix hy
  refine fix_of_grid (k + l) ?_
  rw [hk, hl]
  push_cast
  ring

/-- Fixed points of `precise` are closed under negation. -/
lemma fix_neg {x : ℝ} (hx : precise x = x) : precise (-x) = -x := by
  obtain ⟨k, hk⟩ := grid_of_fix hx
  refine fix_of_grid (-k) ?_
  rw [hk]
  push_cast
  ring

/-- Fixed points of `precise` are closed under integer scaling. -/
lemma fix_intMul (n : ℤ) {x : ℝ} (hx : precise x = x) :
    precise ((n : ℝ) * x) = (n : ℝ) * x := by
  obtain ⟨k, hk⟩ := grid_of_fix hx
  refine fix_of_grid (n * k) ?_
  rw [hk]
  push_cast
  ring

/-- `add` over a list of `precise` fixed points is the exact sum. -/
lemma add_fix_list (l : List ℝ) (h : ∀ x ∈ l, precise x = x) : add l = l.sum := by
  have main : ∀ (m : List ℝ) (acc : ℝ), precise acc = acc → (∀ x ∈ m, precise x = x) →
      m.foldl (fun a c => smallify (bigify a + bigify c)) acc = acc + m.sum := by
    intro m
    induction m with
    | nil => intro acc hacc _; simp
    | cons c cs ih =>
        intro acc hacc hm
        have hc : precise c = c := hm c (by simp)
        have hcs : ∀ x ∈ cs, precise x = x := fun x hx => hm x (by simp [hx])
        have hstep : smallify (bigify acc + bigify c) = acc + c := by
          rw [addStep, hacc, hc, fix_add hacc hc]
        show List.foldl _ (smallify (bigify acc + bigify c)) cs = _
        rw [hstep, ih (acc + c) (fix_add hacc hc) hcs, List.sum_cons]
        ring
  have h0 : precise (0 : ℝ) = 0 := precise_zero
  unfold add
  rw [main l 0 h0 h, zero_add]

lemma precise_neg_three : precise (-3 : ℝ) = -3 := by
  rw [show (-3 : ℝ) = ((-3 : ℤ) : ℝ) by norm_num, precise_intCast]

lemma precise_neg_six : precise (-6 : ℝ) = -6 := by
  rw [show (-6 : ℝ) = ((-6 : ℤ) : ℝ) by norm_num, precise_intCast]

lemma neg_three : neg (3 : ℝ) = -3 := by
  rw [neg_eq, precise_three, precise_neg_three]

lemma neg_six : neg (6 : ℝ) = -6 := by
  rw [neg_eq, show precise (6 : ℝ) = 6 by simpa using precise_intCast 6, precise_neg_six]

/-- A three-operand `multiply` whose first operand is an integer literal and
whose last operand is `1`, over a fixed middle operand, is the exact product. -/
lemma multiply_int_fix (n : ℤ) {x : ℝ} (hx : precise x = x) :
    multiply [(n : ℝ), x, 1] = (n : ℝ) * x := by
  rw [multiply_three, precise_intCast, fix_intMul n hx, mul_one, fix_intMul n hx]

lemma multiply_fix_zero_last (u v : ℝ) : multiply [u, v, 0] = 0 := by
  rw [multiply_three, mul_zero, precise_zero]

lemma multiply_two_one {x : ℝ} (hx : precise x = x) : multiply [x, 1] = x := by
  rw [multiply_two, mul_one, precise_idem, hx]

lemma multiply_two_zero (x : ℝ) : multiply [x, 0] = 0 := by
  rw [multiply_two, mul_zero, precise_zero]

/-- `lerp1` with equal endpoints collapses to the rounded endpoint. -/
lemma lerp1_self (a t : ℝ) : lerp1 a a t = precise a := by
  unfold lerp1
  rw [delta_self, multiply_two, precise_zero, zero_mul, precise_zero, add_two,
    precise_zero, add_zero, precise_idem]

/-- `qbez1` at `t = 0` returns the rounded first-slot (start) value. -/
lemma qbez1_zero (a b c : ℝ) : qbez1 a b c 0 = precise a := by
  unfold qbez1
  rw [inv_zero, e2_one, e2_zero, multiply_two, mul_one, precise_idem,
    multiply_two_zero, subtract_two, precise_zero, sub_zero, precise_zero,
    multiply_two_zero, multiply_two_zero, add_three]
  simp only [precise_zero, add_zero, precise_idem]

/-- `qbez1` at `t = 1` returns the rounded second-slot (end) value. -/
lemma qbez1_one (a b c : ℝ) : qbez1 a b c 1 = precise b := by
  unfold qbez1
  rw [inv_one, e2_zero, e2_one, multiply_two_zero, multiply_two, mul_one, precise_idem,
    subtract_two, precise_one, sub_self, precise_zero, multiply_two_zero,
    multiply_two_zero, add_three]
  simp only [precise_zero, zero_add, add_zero, precise_idem]

/-- `cbez1` at `t = 0` returns the rounded first-slot (start) value. -/
lemma cbez1_zero (a b c d : ℝ) : cbez1 a b c d 0 = precise a := by
  unfold cbez1
  rw [e2_zero, e3_zero]
  simp only [multiply_fix_zero_last, multiply_two_zero]
  unfold add
  simp only [List.foldl]
  simp only [addStep, precise_zero, add_zero, zero_add, precise_idem]

/-- `cbez1` at `t = 1` over 5-decimal-representable operands returns the last
slot (end) value exactly. -/
lemma cbez1_one_fix {a b c d : ℝ} (ha : precise a = a) (hb : precise b = b)
    (hc : precise c = c) (hd : precise d = d) : cbez1 a b c d 1 = d := by
  unfold cbez1
  rw [e2_one, e3_one]
  rw [show neg 3 = ((-3 : ℤ) : ℝ) by rw [neg_three]; norm_num,
    show neg 6 = ((-6 : ℤ) : ℝ) by rw [neg_six]; norm_num,
    show (3 : ℝ) = ((3 : ℤ) : ℝ) by norm_num,
    neg_eq, ha, fix_neg ha]
  simp only [multiply_int_fix (-3) ha, multiply_int_fix 3 ha, multiply_int_fix 3 hb,
    multiply_int_fix (-6) hb, multiply_int_fix 3 hc, multiply_int_fix (-3) hc,
    multiply_two_one (fix_neg ha), multiply_two_one hd]
  rw [add_fix_list]
  · simp only [List.sum_cons, List.sum_nil]
    push_cast
    ring
  · intro x hx
    simp only [List.mem_cons, List.not_mem_nil, or_false] at hx
    rcases hx with h | h | h | h | h | h | h | h | h | h <;> subst h
    · exact ha
    · exact fix_intMul (-3) ha
    · exact fix_intMul 3 ha
    · exact fix_neg ha
    · exact fix_intMul 3 hb
    · exact fix_intMul (-6) hb
    · exact fix_intMul 3 hb
    · exact fix_intMul 3 hc
    · exact fix_intMul (-3) hc
    · exact hd

end Maths

namespace EV

lemma addE_step_nonfin (acc cur : EVal) (h : isFinite acc = false) :
    isFinite (smallifyE (eAdd (bigifyE acc) (bigifyE cur))) = false := by
  cases acc <;> cases cur <;>
    simp_all [isFinite, smallifyE, bigifyE, preciseE, eAdd, eMul, eDiv, Maths.SIGDIG]

lemma subE_step_nonfin (acc cur : EVal) (h : isFinite acc = false) :
    isFinite (smallifyE (eSub (bigifyE acc) (bigifyE cur))) = false := by
  cases acc <;> cases cur <;>
    simp_all [isFinite, smallifyE, bigifyE, preciseE, eSub, eAdd, eNeg, eMul, eDiv,
      Maths.SIGDIG]

lemma mulE_step_nonfin (acc cur : EVal) (h : isFinite acc = false) :
    isFinite (smallifyE (eMul (bigifyE acc) cur)) = false := by
  cases acc <;> cases cur <;>
    simp_all [isFinite, smallifyE, bigifyE, preciseE, eMul, eDiv, Maths.SIGDIG] <;>
    split_ifs <;>
    simp_all [isFinite, preciseE]

lemma divE_step_nonfin (acc cur : EVal) (h : isFinite acc = false) :
    isFinite (smallifyE (eDiv (bigifyE acc) cur)) = false := by
  cases acc <;> cases cur <;>
    simp_all [isFinite, smallifyE, bigifyE, preciseE, eDiv, eMul, Maths.SIGDIG] <;>
    split_ifs <;>
    simp_all [isFinite, preciseE]

/-- Folding a step that preserves non-finiteness keeps a non-finite
accumulator non-finite to the end. -/
lemma foldl_nonfin (f : EVal → EVal → EVal)
    (hf : ∀ a c, isFinite a = false → isFinite (f a c) = false) :
    ∀ (l : List EVal) (acc : EVal), isFinite acc = false →
      isFinite (l.foldl f acc) = false := by
  intro l
  induction l with
  | nil => intro acc h; simpa using h
  | cons c cs ih => intro acc h; simpa using ih (f acc c) (hf acc c h)

end EV

namespace Maths

lemma pow_nil : pow ([] : List ℝ) = 1 := by
  simp [pow]

/-- The reversed fold of `pow` in recursive form: the head of the operand
list is the base and the `pow` of the tail is the exponent. -/
lemma pow_cons (v : ℝ) (vs : List ℝ) :
    pow (v :: vs) = precise (Real.rpow (precise v) (pow vs)) := by
  unfold pow
  rw [List.reverse_cons, List.foldl_append]
  rfl

lemma add_fixp (v : ℝ) (vs : List ℝ) :
    precise (add (v :: vs)) = add (v :: vs) := by
  unfold add
  exact foldl_fix_ne _ (fun a c => precise_smallify _) (v :: vs) 0 (by simp)

lemma multiply_fixp (v : ℝ) (vs : List ℝ) :
    precise (multiply (v :: vs)) = multiply (v :: vs) := by
  unfold multiply
  exact foldl_fix_ne _ (fun a c => precise_smallify _) (v :: vs) 1 (by simp)

lemma pow_fixp (v : ℝ) (vs : List ℝ) :
    precise (pow (v :: vs)) = pow (v :: vs) := by
  unfold pow
  exact foldl_fix_ne _ (fun a c => precise_idem _) (v :: vs).reverse 1 (by simp)

lemma subtract_fixp (v w : ℝ) (vs : List ℝ) :
    precise (subtract (v :: w :: vs)) = subtract (v :: w :: vs) := by
  rw [subtract_cons]
  exact foldl_fix_ne _ (fun a c => precise_smallify _) (w :: vs) v (by simp)

lemma divide_fixp (v w : ℝ) (vs : List ℝ) :
    precise (divide (v :: w :: vs)) = divide (v :: w :: vs) := by
  rw [divide_cons]
  exact foldl_fix_ne _ (fun a c => precise_smallify _) (w :: vs) v (by simp)

end Maths

namespace Maths

lemma smallify_bigify (v : ℝ) : smallify (bigify v) = precise v := by
  unfold smallify bigify
  rw [mul_div_cancel_right₀ _ ten_pow_ne]
  exact precise_idem v

lemma precise_four : precise (4 : ℝ) = 4 := by
  simpa using precise_intCast 4

lemma precise_six : precise (6 : ℝ) = 6 := by
  simpa using precise_intCast 6

lemma precise_sixteen : precise (16 : ℝ) = 16 := by
  simpa using precise_intCast 16

lemma precise_neg_two : precise (-2 : ℝ) = -2 := by
  rw [show (-2 : ℝ) = ((-2 : ℤ) : ℝ) by norm_num, precise_intCast]

lemma precise_quarter : precise ((1 : ℝ) / 4) = 1 / 4 :=
  fix_of_grid 25000 (by norm_num [SIGDIG])

/-- A singleton `pow` returns the rounded operand (the exponent accumulator
is the seed `1`). -/
lemma pow_single (v : ℝ) : pow [v] = precise v := by
  rw [pow_cons, pow_nil, rpow_eq_pow, Real.rpow_one, precise_idem]

lemma rpow_two_two : Real.rpow (2 : ℝ) (2 : ℝ) = 4 := by
  rw [rpow_eq_pow, show ((2 : ℝ) ^ (2 : ℝ)) = ((2 : ℝ) ^ ((2 : ℤ) : ℝ)) by norm_num,
    Real.rpow_intCast]
  norm_num

lemma rpow_two_neg_two : Real.rpow (2 : ℝ) (-2 : ℝ) = 1 / 4 := by
  rw [rpow_eq_pow, show ((2 : ℝ) ^ (-2 : ℝ)) = ((2 : ℝ) ^ ((-2 : ℤ) : ℝ)) by norm_num,
    Real.rpow_intCast]
  norm_num

lemma rpow_neg_two_two : Real.rpow (-2 : ℝ) (2 : ℝ) = 4 := by
  rw [rpow_eq_pow, show (((-2) : ℝ) ^ (2 : ℝ)) = (((-2) : ℝ) ^ ((2 : ℤ) : ℝ)) by norm_num,
    Real.rpow_intCast]
  norm_num

lemma rpow_two_four : Real.rpow (2 : ℝ) (4 : ℝ) = 16 := by
  rw [rpow_eq_pow, show ((2 : ℝ) ^ (4 : ℝ)) = ((2 : ℝ) ^ ((4 : ℤ) : ℝ)) by norm_num,
    Real.rpow_intCast]
  norm_num

lemma pow_two_two : pow [(2 : ℝ), 2] = 4 := by
  rw [pow_cons, pow_single, precise_two, rpow_two_two, precise_four]

lemma pow_two_neg_two : pow [(2 : ℝ), -2] = 1 / 4 := by
  rw [pow_cons, pow_single, precise_neg_two, precise_two, rpow_two_neg_two,
    precise_quarter]

lemma pow_two_two_two : pow [(2 : ℝ), 2, 2] = 16 := by
  rw [pow_cons, pow_two_two, precise_two, rpow_two_four, precise_sixteen]

lemma pow_two_neg_two_two : pow [(2 : ℝ), -2, 2] = 16 := by
  have inner : pow [(-2 : ℝ), 2] = 4 := by
    rw [pow_cons, pow_single, precise_two, precise_neg_two, rpow_neg_two_two,
      precise_four]
  rw [pow_cons, inner, precise_two, rpow_two_four, precise_sixteen]

end Maths

section MoreCast

lemma multiply2_cast (x y : ℚ) :
    Maths.multiply [(x : ℝ), (y : ℝ)] = ((MathsQ.multiply [x, y] : ℚ) : ℝ) := by
  simpa using multiply_cast [x, y]

lemma multiply3_cast (x y z : ℚ) :
    Maths.multiply [(x : ℝ), (y : ℝ), (z : ℝ)] = ((MathsQ.multiply [x, y, z] : ℚ) : ℝ) := by
  simpa using multiply_cast [x, y, z]

lemma cbez1_cast (a b c d t : ℚ) :
    Maths.cbez1 (a : ℝ) (b : ℝ) (c : ℝ) (d : ℝ) (t : ℝ) =
      ((MathsQ.cbez1 a b c d t : ℚ) : ℝ) := by
  unfold Maths.cbez1 MathsQ.cbez1
  rw [show (3 : ℝ) = ((3 : ℚ) : ℝ) by norm_num, show (6 : ℝ) = ((6 : ℚ) : ℝ) by norm_num,
    e2_cast, e3_cast, neg_cast, neg_cast, neg_cast]
  rw [multiply3_cast, multiply3_cast, multiply2_cast, multiply3_cast, multiply3_cast,
    multiply3_cast, multiply3_cast, multiply3_cast, multiply2_cast]
  simpa using add_cast [a, MathsQ.multiply [MathsQ.neg 3, a, t],
    MathsQ.multiply [3, a, MathsQ.e2 t], MathsQ.multiply [MathsQ.neg a, MathsQ.e3 t],
    MathsQ.multiply [3, b, t], MathsQ.multiply [MathsQ.neg 6, b, MathsQ.e2 t],
    MathsQ.multiply [3, b, MathsQ.e3 t], MathsQ.multiply [3, c, MathsQ.e2 t],
    MathsQ.multiply [MathsQ.neg 3, c, MathsQ.e3 t],
    MathsQ.multiply [d, MathsQ.e3 t]]

end MoreCast

/-- The spec-modelled `pow` step formula in recursive form. -/
lemma powSpecC2_nil : powSpecC2 [] = 1 := by
  simp [powSpecC2]

lemma powSpecC2_cons (v : ℝ) (vs : List ℝ) :
    powSpecC2 (v :: vs) = Maths.precise (Real.rpow v (powSpecC2 vs)) := by
  unfold powSpecC2
  rw [List.reverse_cons, List.foldl_append]
  rfl

/-- C7: for every value `v`, `scale_down(scale_up(v))` equals
`round_to_sigdig(v)`, i.e. `smallify (bigify v) = precise v`. -/
theorem c7_scale_roundtrip : ∀ v : ℝ, Maths.smallify (Maths.bigify v) = Maths.precise v :=
  Maths.smallify_bigify

/-- C10: with an empty operand list, `add`, `subtract` and `divide` return 0
and `pow` returns 1 (the fold seeds); in the model all four operations are
total functions, so no error can be raised. -/
theorem c10_empty_operands :
    Maths.add [] = 0 ∧ Maths.subtract [] = 0 ∧ Maths.divide [] = 0 ∧ Maths.pow [] = 1 :=
  ⟨rfl, rfl, rfl, Maths.pow_nil⟩

/-- C9: the interpolation functions of `maths.js` and the identically named
functions of `geometry.js` are extensionally equal, and both `qbez2` wrappers
use the slot assignment `qbez1(x0, x1, cx, t)` (end point in the second slot,
control point in the third). -/
theorem c9_maths_geometry_agree :
    (∀ a b t : ℝ, Maths.lerp1 a b t = Geometry.lerp1 a b t) ∧
    (∀ (p0 p1 : Maths.Point) (t : ℝ), Maths.lerp2 p0 p1 t = Geometry.lerp2 p0 p1 t) ∧
    (∀ a b c t : ℝ, Maths.qbez1 a b c t = Geometry.qbez1 a b c t) ∧
    (∀ (p0 pc p1 : Maths.Point) (t : ℝ),
      Maths.qbez2 p0 pc p1 t = Geometry.qbez2 p0 pc p1 t) ∧
    (∀ (p0 pc p1 : Maths.Point) (t : ℝ),
      (Maths.qbez2 p0 pc p1 t).x = Maths.qbez1 p0.x p1.x pc.x t ∧
      (Geometry.qbez2 p0 pc p1 t).x = Geometry.qbez1 p0.x p1.x pc.x t) ∧
    (∀ a b c d t : ℝ, Maths.cbez1 a b c d t = Geometry.cbez1 a b c d t) ∧
    (∀ (p0 c0 c1 p1 : Maths.Point) (t : ℝ),
      Maths.cbez2 p0 c0 c1 p1 t = Geometry.cbez2 p0 c0 c1 p1 t) :=
  ⟨fun _ _ _ => rfl, fun _ _ _ => rfl, fun _ _ _ _ => rfl, fun _ _ _ _ => rfl,
   fun _ _ _ _ => ⟨rfl, rfl⟩, fun _ _ _ _ _ => rfl, fun _ _ _ _ _ => rfl⟩

/-- C5: `divide` seeds the accumulator with the first operand unscaled and
each later step computes `scale_down(scale_up(acc) / cur)` with the divisor
unscaled; in particular `divide(2,3) = 0.66667`. -/
theorem c5_divide_fold :
    (∀ (v : ℝ) (vs : List ℝ), Maths.divide (v :: vs) =
      vs.foldl (fun acc cur => Maths.smallify (Maths.bigify acc / cur)) v) ∧
    Maths.divide [2, 3] = 66667 / 100000 := by
  constructor
  · exact Maths.divide_cons
  · rw [show ([(2 : ℝ), 3]) = ([2, 3] : List ℚ).map (fun q : ℚ => (q : ℝ)) by
      norm_num, divide_cast,
      show MathsQ.divide [2, 3] = 66667 / 100000 by
        norm_num [MathsQ.divide, reduceIdx, MathsQ.smallify, MathsQ.bigify,
          MathsQ.precise, Maths.SIGDIG]]
    norm_num

/-- C3: `multiply` folds left-to-right from the seed 1, scaling only the
accumulator at each step; `multiply()` of no operands is 1, `multiply(v)` is
`scale_down(scale_up(1) * v)`, and the three-operand examples evaluate as the
spec states. -/
theorem c3_multiply_fold :
    Maths.multiply [] = 1 ∧
    (∀ v : ℝ, Maths.multiply [v] = Maths.smallify (Maths.bigify 1 * v)) ∧
    (∀ (vs : List ℝ) (v : ℝ), Maths.multiply (vs ++ [v]) =
      Maths.smallify (Maths.bigify (Maths.multiply vs) * v)) ∧
    Maths.multiply [2, 2, 2] = 8 ∧ Maths.multiply [-2, 2, -2] = 8 ∧
    Maths.multiply [-2, -2, -2] = -8 := by
  refine ⟨rfl, fun v => rfl, fun vs v => ?_, ?_, ?_, ?_⟩
  · unfold Maths.multiply
    rw [List.foldl_append]
    rfl
  · rw [show ([(2 : ℝ), 2, 2]) = ([2, 2, 2] : List ℚ).map (fun q : ℚ => (q : ℝ)) by
      norm_num, multiply_cast,
      show MathsQ.multiply [2, 2, 2] = 8 by
        norm_num [MathsQ.multiply, List.foldl, MathsQ.smallify, MathsQ.bigify,
          MathsQ.precise, Maths.SIGDIG]]
    norm_num
  · rw [show ([(-2 : ℝ), 2, -2]) = ([-2, 2, -2] : List ℚ).map (fun q : ℚ => (q : ℝ)) by
      norm_num, multiply_cast,
      show MathsQ.multiply [-2, 2, -2] = 8 by
        norm_num [MathsQ.multiply, List.foldl, MathsQ.smallify, MathsQ.bigify,
          MathsQ.precise, Maths.SIGDIG]]
    norm_num
  · rw [show ([(-2 : ℝ), -2, -2]) = ([-2, -2, -2] : List ℚ).map (fun q : ℚ => (q : ℝ)) by
      norm_num, multiply_cast,
      show MathsQ.multiply [-2, -2, -2] = -8 by
        norm_num [MathsQ.multiply, List.foldl, MathsQ.smallify, MathsQ.bigify,
          MathsQ.precise, Maths.SIGDIG]]
    norm_num

/-- C1 (amended): `add`, `multiply` and `pow` return `precise` fixed points
(values rounded to 5 decimal places) for every operand list of length at
least 1; `subtract` and `divide` do so for length at least 2, but with a
single operand they return the operand unchanged, without rounding. -/
theorem c1_results_rounded_amended :
    (∀ (v : ℝ) (vs : List ℝ),
      Maths.add (v :: vs) = Maths.precise (Maths.add (v :: vs))) ∧
    (∀ (v : ℝ) (vs : List ℝ),
      Maths.multiply (v :: vs) = Maths.precise (Maths.multiply (v :: vs))) ∧
    (∀ (v : ℝ) (vs : List ℝ),
      Maths.pow (v :: vs) = Maths.precise (Maths.pow (v :: vs))) ∧
    (∀ (v w : ℝ) (vs : List ℝ),
      Maths.subtract (v :: w :: vs) = Maths.precise (Maths.subtract (v :: w :: vs))) ∧
    (∀ (v w : ℝ) (vs : List ℝ),
      Maths.divide (v :: w :: vs) = Maths.precise (Maths.divide (v :: w :: vs))) ∧
    (∀ v : ℝ, Maths.subtract [v] = v) ∧
    (∀ v : ℝ, Maths.divide [v] = v) :=
  ⟨fun v vs => (Maths.add_fixp v vs).symm,
   fun v vs => (Maths.multiply_fixp v vs).symm,
   fun v vs => (Maths.pow_fixp v vs).symm,
   fun v w vs => (Maths.subtract_fixp v w vs).symm,
   fun v w vs => (Maths.divide_fixp v w vs).symm,
   Maths.subtract_single, Maths.divide_single⟩

/-- C1 counterexample: a single-operand `subtract` returns its operand
unrounded, so the result of `subtract(0.000001)` is not equal to
`round_to_sigdig` of itself, contradicting the claim for all operand lists of
length at least 1. -/
theorem c1_results_rounded_counterexample :
    ¬ (Maths.subtract [(1 : ℝ) / 1000000] =
        Maths.precise (Maths.subtract [(1 : ℝ) / 1000000])) := by
  rw [Maths.subtract_single,
    show ((1 : ℝ) / 1000000) = ((1 / 1000000 : ℚ) : ℝ) by norm_num, precise_cast,
    show MathsQ.precise (1 / 1000000) = 0 by
      norm_num [MathsQ.precise, Maths.SIGDIG]]
  norm_num

/-- C6 (amended): degenerate interpolation returns the rounded endpoint:
`lerp_value(a, a, t) = round_to_sigdig(a)` for all `a` and `t`, and hence
equals `a` itself exactly when `a` is already a 5-decimal value. -/
theorem c6_lerp_degenerate_amended :
    (∀ a t : ℝ, Maths.lerp1 a a t = Maths.precise a) ∧
    (∀ a t : ℝ, Maths.precise a = a → Maths.lerp1 a a t = a) :=
  ⟨Maths.lerp1_self, fun a t h => (Maths.lerp1_self a t).trans h⟩

/-- C6 witness: the hypothesis of the second conjunct is satisfiable, e.g.
`lerp1(2, 2, 7) = 2`. -/
theorem c6_lerp_degenerate_witness : Maths.lerp1 2 2 7 = 2 :=
  c6_lerp_degenerate_amended.2 2 7 Maths.precise_two

/-- C6 counterexample: `lerp_value(a, a, t) = a` fails for `a = 0.000001`
(which rounds to 0 at 5 decimal places), so degenerate interpolation is not
the identity for all finite `a`. -/
theorem c6_lerp_degenerate_counterexample :
    ¬ (Maths.lerp1 ((1 : ℝ) / 1000000) ((1 : ℝ) / 1000000) 0 = (1 : ℝ) / 1000000) := by
  rw [show ((1 : ℝ) / 1000000) = ((1 / 1000000 : ℚ) : ℝ) by norm_num,
    show ((0 : ℝ)) = (((0 : ℚ)) : ℝ) by norm_num, lerp1_cast,
    show MathsQ.lerp1 (1 / 1000000) (1 / 1000000) 0 = 0 by
      norm_num [MathsQ.lerp1, MathsQ.add, MathsQ.multiply, MathsQ.delta,
        MathsQ.subtract, reduceIdx, MathsQ.smallify, MathsQ.bigify, MathsQ.precise,
        Maths.SIGDIG, List.foldl]]
  norm_num

/-- C4 (amended): `qbez1(a, b, c, t)` returns the rounded first-slot value at
`t = 0` and the rounded second-slot value at `t = 1` (slot order: start, end,
control), for all values; `cbez1` returns the rounded start value at `t = 0`
for all values, but at `t = 1` returns the end value only under the proviso
that the operands are 5-decimal values; the point-level wrappers use the
`qbez1(x0, x1, cx, t)` slot assignment per coordinate. -/
theorem c4_bezier_endpoints_amended :
    (∀ a b c : ℝ, Maths.qbez1 a b c 0 = Maths.precise a) ∧
    (∀ a b c : ℝ, Maths.qbez1 a b c 1 = Maths.precise b) ∧
    (∀ a b c d : ℝ, Maths.cbez1 a b c d 0 = Maths.precise a) ∧
    (∀ a b c d : ℝ, Maths.precise a = a → Maths.precise b = b → Maths.precise c = c →
      Maths.precise d = d → Maths.cbez1 a b c d 1 = d) ∧
    (∀ (p0 pc p1 : Maths.Point),
      (Maths.qbez2 p0 pc p1 0).x = Maths.precise p0.x ∧
      (Maths.qbez2 p0 pc p1 1).x = Maths.precise p1.x ∧
      (Maths.qbez2 p0 pc p1 0).y = Maths.precise p0.y ∧
      (Maths.qbez2 p0 pc p1 1).y = Maths.precise p1.y) :=
  ⟨Maths.qbez1_zero, Maths.qbez1_one, Maths.cbez1_zero,
   fun _ _ _ _ ha hb hc hd => Maths.cbez1_one_fix ha hb hc hd,
   fun p0 pc p1 =>
     ⟨Maths.qbez1_zero p0.x p1.x pc.x, Maths.qbez1_one p0.x p1.x pc.x,
      Maths.qbez1_zero p0.y p1.y pc.y, Maths.qbez1_one p0.y p1.y pc.y⟩⟩

/-- C4 witness: the grid hypotheses of the `cbez1`-at-1 conjunct are
satisfiable, e.g. `cbez1(1, 2, 3, 4, 1) = 4`. -/
theorem c4_bezier_endpoints_witness : Maths.cbez1 1 2 3 4 1 = 4 :=
  c4_bezier_endpoints_amended.2.2.2.1 1 2 3 4 Maths.precise_one Maths.precise_two
    Maths.precise_three Maths.precise_four

/-- C4 counterexample: with control value `b = 1/750000` (so `3b` rounds down
to 0 while `6b` rounds up to `0.00001`), `cbez1(0, b, 0, 0, 1) = -0.00001`,
which is not the rounded end endpoint `round_to_sigdig(0) = 0`; the claim
fails for general finite operand values. -/
theorem c4_bezier_endpoints_counterexample :
    Maths.cbez1 0 ((1 : ℝ) / 750000) 0 0 1 = -(1 / 100000) ∧
    Maths.precise (0 : ℝ) = 0 ∧ ((-(1 / 100000) : ℝ)) ≠ 0 := by
  refine ⟨?_, Maths.precise_zero, by norm_num⟩
  rw [show ((0 : ℝ)) = (((0 : ℚ)) : ℝ) by norm_num,
    show ((1 : ℝ) / 750000) = ((1 / 750000 : ℚ) : ℝ) by norm_num,
    show ((1 : ℝ)) = (((1 : ℚ)) : ℝ) by norm_num, cbez1_cast,
    show MathsQ.cbez1 0 (1 / 750000) 0 0 1 = -(1 / 100000) by
      norm_num [MathsQ.cbez1, MathsQ.add, MathsQ.multiply, MathsQ.neg, MathsQ.e2,
        MathsQ.e3, MathsQ.smallify, MathsQ.bigify, MathsQ.precise, Maths.SIGDIG,
        List.foldl]]
  norm_num

/-- C2 (amended): `pow` reverses the operand list and folds with the
accumulator initialised to 1, computing
`round_to_sigdig(round_to_sigdig(operand) ^ accumulator)` at each step (the
operand is rounded before exponentiation); the spec's concrete examples all
hold: `pow(2,2) = 4`, `pow(2,-2) = 0.25`, `pow(2,2,2) = 16` and
`pow(2,-2,2) = 16`. -/
theorem c2_pow_tower_amended :
    (∀ (v : ℝ) (vs : List ℝ), Maths.pow (v :: vs) =
      Maths.precise (Real.rpow (Maths.precise v) (Maths.pow vs))) ∧
    (∀ u v : ℝ, Maths.pow [u, v] =
      Maths.precise (Real.rpow (Maths.precise u) (Maths.precise v))) ∧
    Maths.pow [2, 2] = 4 ∧ Maths.pow [2, -2] = 1 / 4 ∧
    Maths.pow [2, 2, 2] = 16 ∧ Maths.pow [2, -2, 2] = 16 := by
  refine ⟨Maths.pow_cons, fun u v => ?_, Maths.pow_two_two, Maths.pow_two_neg_two,
    Maths.pow_two_two_two, Maths.pow_two_neg_two_two⟩
  rw [Maths.pow_cons, Maths.pow_single]

/-- C2 counterexample: the claim's per-step formula
`round_to_sigdig(operand ^ accumulator)` omits the rounding of the operand
that the code performs before exponentiating.  For `pow(1.000001, 6)` the
code rounds the base to 1 and returns 1, while the claimed formula yields
`round_to_sigdig(1.000001 ^ 6) = 1.00001`. -/
theorem c2_pow_tower_counterexample :
    Maths.pow [(1000001 : ℝ) / 1000000, 6] = 1 ∧
    powSpecC2 [(1000001 : ℝ) / 1000000, 6] = 100001 / 100000 ∧
    ((1 : ℝ)) ≠ 100001 / 100000 := by
  have hbase : ((1000001 : ℝ) / 1000000) = ((1000001 / 1000000 : ℚ) : ℝ) := by norm_num
  have hb1 : Maths.precise ((1000001 : ℝ) / 1000000) = 1 := by
    rw [hbase, precise_cast,
      show MathsQ.precise (1000001 / 1000000) = 1 by
        norm_num [MathsQ.precise, Maths.SIGDIG]]
    norm_num
  have hsix : Maths.pow [(6 : ℝ)] = 6 := by
    rw [Maths.pow_single, Maths.precise_six]
  refine ⟨?_, ?_, by norm_num⟩
  · rw [Maths.pow_cons, hsix, hb1, Maths.rpow_eq_pow, Real.one_rpow, Maths.precise_one]
  · have hs6 : powSpecC2 [(6 : ℝ)] = 6 := by
      rw [powSpecC2_cons, powSpecC2_nil, Maths.rpow_eq_pow, Real.rpow_one,
        Maths.precise_six]
    rw [powSpecC2_cons, hs6, Maths.rpow_eq_pow,
      show ((1000001 : ℝ) / 1000000) ^ (6 : ℝ)
        = ((1000001 : ℝ) / 1000000) ^ ((6 : ℕ) : ℝ) by norm_num,
      Real.rpow_natCast, hbase,
      show (((1000001 / 1000000 : ℚ) : ℝ)) ^ (6 : ℕ)
        = (((1000001 / 1000000 : ℚ) ^ (6 : ℕ) : ℚ) : ℝ) by push_cast; ring,
      precise_cast,
      show MathsQ.precise ((1000001 / 1000000 : ℚ) ^ (6 : ℕ)) = 100001 / 100000 by
        norm_num [MathsQ.precise, Maths.SIGDIG]]
    norm_num

/-- C8 (amended): no core operation raises an error (all model functions are
total); a zero divisor yields an infinity or `NaN` (`divide(1,0)` is
`Infinity`, `divide(0,0)` is `NaN`); and a non-finite value produced at any
fold step keeps the accumulator non-finite through all remaining steps of
`add`, `subtract`, `multiply` and `divide` — though not necessarily
unchanged: an infinity may flip sign or degrade to `NaN`. -/
theorem c8_nonfinite_propagation_amended :
    EV.divideE [.fin 1, .fin 0] = EV.EVal.inf ∧
    EV.divideE [.fin 0, .fin 0] = EV.EVal.nan ∧
    (∀ (vs : List EV.EVal) (acc : EV.EVal), EV.isFinite acc = false →
      EV.isFinite (vs.foldl
        (fun a c => EV.smallifyE (EV.eAdd (EV.bigifyE a) (EV.bigifyE c))) acc) = false) ∧
    (∀ (vs : List EV.EVal) (acc : EV.EVal), EV.isFinite acc = false →
      EV.isFinite (vs.foldl
        (fun a c => EV.smallifyE (EV.eSub (EV.bigifyE a) (EV.bigifyE c))) acc) = false) ∧
    (∀ (vs : List EV.EVal) (acc : EV.EVal), EV.isFinite acc = false →
      EV.isFinite (vs.foldl
        (fun a c => EV.smallifyE (EV.eMul (EV.bigifyE a) c)) acc) = false) ∧
    (∀ (vs : List EV.EVal) (acc : EV.EVal), EV.isFinite acc = false →
      EV.isFinite (vs.foldl
        (fun a c => EV.smallifyE (EV.eDiv (EV.bigifyE a) c)) acc) = false) := by
  refine ⟨?_, ?_, EV.foldl_nonfin _ EV.addE_step_nonfin, EV.foldl_nonfin _ EV.subE_step_nonfin,
    EV.foldl_nonfin _ EV.mulE_step_nonfin, EV.foldl_nonfin _ EV.divE_step_nonfin⟩
  · norm_num [EV.divideE, reduceIdx, EV.smallifyE, EV.bigifyE, EV.preciseE, EV.eDiv,
      EV.eMul, MathsQ.precise, Maths.SIGDIG]
  · norm_num [EV.divideE, reduceIdx, EV.smallifyE, EV.bigifyE, EV.preciseE, EV.eDiv,
      EV.eMul, MathsQ.precise, Maths.SIGDIG]

/-- C8 witness: the propagation conjuncts apply, e.g. folding the `add` step
over `[1]` from a `NaN` accumulator stays non-finite. -/
theorem c8_nonfinite_propagation_witness :
    EV.isFinite (([EV.EVal.fin 1]).foldl
      (fun a c => EV.smallifyE (EV.eAdd (EV.bigifyE a) (EV.bigifyE c)))
      EV.EVal.nan) = false :=
  c8_nonfinite_propagation_amended.2.2.1 [EV.EVal.fin 1] EV.EVal.nan rfl

/-- C8 counterexample: non-finite values do not propagate *unchanged*: in
`divide(1, 0, -1)` the second step produces `Infinity` (the value of
`divide(1, 0)`), but the final result is `-Infinity`. -/
theorem c8_nonfinite_propagation_counterexample :
    EV.divideE [.fin 1, .fin 0] = EV.EVal.inf ∧
    EV.divideE [.fin 1, .fin 0, .fin (-1)] = EV.EVal.ninf ∧
    EV.EVal.ninf ≠ EV.EVal.inf := by
  refine ⟨?_, ?_, by simp⟩
  · norm_num [EV.divideE, reduceIdx, EV.smallifyE, EV.bigifyE, EV.preciseE, EV.eDiv,
      EV.eMul, MathsQ.precise, Maths.SIGDIG]
  · norm_num [EV.divideE, reduceIdx, EV.smallifyE, EV.bigifyE, EV.preciseE, EV.eDiv,
      EV.eMul, MathsQ.precise, Maths.SIGDIG]
